import Mathlib

/-!
# Verification of the hyplan local-projection geometry pipeline

A shallow embedding of `src/hyplan/geometry.py`.  Geographic and local
(projected) coordinates are points of the real plane; shapely geometries are
modelled by their coordinate lists together with their point-set regions, and
shapely set operations (`translate`, `unary_union`, pointwise `transform`)
become the corresponding operations on sets of points.  External collaborators
that are not part of the repository (the pyproj UTM transformer pair, shapely's
`minimum_rotated_rectangle` and `convex_hull` primitives, shapely's area
centroid, pymap3d's `vdist` and `meanm`) enter as explicit function parameters;
where a theorem needs a fact about such a collaborator it takes that fact as a
hypothesis stating the collaborator's documented contract.  Python floats are
finite binary rationals and are modelled as `ℚ` where the code inspects them
(the distance-argument validation); coordinate arithmetic is modelled exactly
over `ℝ`.
-/

namespace Hyplan

/-- A coordinate pair: `(x, y)`, i.e. `(lon, lat)` in geographic space or
metric `(x, y)` in a local projected space. -/
abbrev PointR : Type := ℝ × ℝ

/-- The set of points appearing in a coordinate list. -/
def ptSet (l : List PointR) : Set PointR := { q | q ∈ l }

/-- `wrap_to_180` (geometry.py lines 19-21): `np.mod(lon + 180, 360) - 180`.
`np.mod` with a positive modulus is the floored modulus
`x - 360 * floor(x / 360)`.  Stated over any linear ordered field with a floor
so that it can be evaluated on `ℚ` and used on `ℝ`. -/
def wrap_to_180 {α : Type} [LinearOrderedField α] [FloorRing α] (lon : α) : α :=
  lon + 180 - 360 * (⌊(lon + 180) / 360⌋ : ℤ) - 180

/-- `wrap_to_360` (geometry.py lines 23-24): `np.mod(angle, 360)`. -/
def wrap_to_360 {α : Type} [LinearOrderedField α] [FloorRing α] (angle : α) : α :=
  angle - 360 * (⌊angle / 360⌋ : ℤ)

/-- `np.radians`: degrees to radians. -/
noncomputable def radians (deg : ℝ) : ℝ := deg * (Real.pi / 180)

/-- A Python runtime value handed to `buffer_polygon_along_azimuth` as one of
its distance arguments.  Python `float`s are finite binary rationals, modelled
as `ℚ`; `int`, `str` and `None` cover the other argument shapes the
validation code can meet. -/
inductive PyVal where
  | float (x : ℚ)
  | int (n : ℤ)
  | str (s : String)
  | noneV
deriving DecidableEq, Repr

/-- Whether a `PyVal` is a Python `float` (the only type the source accepts). -/
def PyVal.isFloat : PyVal → Bool
  | .float _ => true
  | _ => false

/-- Whether a `PyVal` is of a numeric Python type (`float` or `int`).  This is
the notion used by the specification sentence under scrutiny, not by the
source, which tests `isinstance(value, float)` only. -/
def PyVal.isNumeric : PyVal → Bool
  | .float _ => true
  | .int _ => true
  | _ => false

/-- Numeric value of a numeric `PyVal` (0 for non-numeric values). -/
def PyVal.numValue : PyVal → ℚ
  | .float x => x
  | .int n => (n : ℚ)
  | _ => 0

/-- A `PyVal` that the source-code validation accepts: a Python `float` that
is strictly positive. -/
def PyVal.isPosFloat : PyVal → Bool
  | .float x => decide (0 < x)
  | _ => false

/-- Error taxonomy.  Each constructor corresponds to one family of `raise`
sites of geometry.py: `invalidGeometry` to the `ValueError`s of
`_validate_polygon`, `invalidParameter` to the `ValueError`s of the distance
checks (lines 376-380), `typeError` to the `TypeError`s of the input type
checks, `emptyInput` to the `ValueError` of line 105, and `computation` to the
`ValueError`s that wrap an exception caught in a `try` block, carrying the
operation description and the message of the original cause. -/
inductive GeoErr where
  | invalidGeometry (msg : String)
  | invalidParameter (msg : String)
  | typeError (msg : String)
  | emptyInput (msg : String)
  | computation (opName : String) (cause : String)
deriving DecidableEq, Repr

/-- `str(e)` of the original exception as interpolated into a wrapping
message. -/
def GeoErr.describe : GeoErr → String
  | .invalidGeometry m => m
  | .invalidParameter m => m
  | .typeError m => m
  | .emptyInput m => m
  | .computation op m => op ++ ": " ++ m

/-- A shapely `Polygon` argument: its exterior ring coordinate list, the
result of shapely's external `is_valid` predicate, and its point-set region
(the filled polygon, a planar-geometry-library notion kept abstract). -/
structure PyPolygon where
  ring : List PointR
  valid : Bool
  region : Set PointR

/-- The possible shapes of the `polygon` argument of the rectangle and buffer
entry points: a `Polygon`, a `MultiPolygon`, some non-geometry object with a
type name, or Python `None`. -/
inductive GeomArg where
  | poly (p : PyPolygon)
  | multiPoly
  | nonGeom (tyName : String)
  | noneV

/-- `_validate_polygon` (geometry.py lines 26-72).  Returns the raised error,
or `none` when validation passes.  A `None` input short-circuits with no
validation at all (lines 47-49).  `polygon.is_empty` holds exactly when the
polygon has no coordinates, modelled as an empty exterior ring. -/
def _validate_polygon : GeomArg → Option GeoErr
  | .noneV => Option.none
  | .multiPoly =>
      some (.invalidGeometry "MultiPolygon input is not supported. Provide a single Polygon.")
  | .nonGeom ty =>
      some (.invalidGeometry ("Input must be a Shapely Polygon. Received type: " ++ ty ++ "."))
  | .poly p =>
      if p.ring.length = 0 then some (.invalidGeometry "Input polygon is empty.")
      else if p.ring.length < 4 then
        some (.invalidGeometry "Input polygon has insufficient points to form a valid geometry.")
      else if p.valid = false then some (.invalidGeometry "Input polygon is invalid.")
      else Option.none

/-- One iteration of the distance-validation loop of
`buffer_polygon_along_azimuth` (geometry.py lines 376-380): first the
`isinstance(value, float)` test, then the `value <= 0` test. -/
def check_distance (key : String) (v : PyVal) : Option GeoErr :=
  match v with
  | .float x =>
      if x ≤ 0 then some (.invalidParameter "Distance must be greater than 0.") else Option.none
  | _ => some (.invalidParameter ("Invalid type for " ++ key))

/-- The distance-validation loop, iterating the dict in insertion order:
`along_track_distance` first, then `across_track_distance`. -/
def validate_distances (along across : PyVal) : Option GeoErr :=
  match check_distance "along_track_distance" along with
  | some e => some e
  | Option.none => check_distance "across_track_distance" across

/-- `get_utm_transforms` (geometry.py lines 145-182), with the pyproj
machinery abstracted: the transformer pair `(f, g)` that pyproj would derive
is passed in, and only the repository's own input type check remains.  On a
non-geometry input (`None` included) line 164-165 raises
`TypeError("Input must be a Shapely geometry or a list of geometries.")`. -/
def get_utm_transforms (f g : PointR → PointR) :
    GeomArg → Except GeoErr ((PointR → PointR) × (PointR → PointR))
  | .noneV => .error (.typeError "Input must be a Shapely geometry or a list of geometries.")
  | .nonGeom _ => .error (.typeError "Input must be a Shapely geometry or a list of geometries.")
  | _ => .ok (f, g)

/-- The exterior-ring point set of a polygon argument. -/
def ringSet : GeomArg → Set PointR
  | .poly p => ptSet p.ring
  | _ => ∅

/-- The point-set region of a polygon argument. -/
def regionOf : GeomArg → Set PointR
  | .poly p => p.region
  | _ => ∅

/-- `translate_polygon` (geometry.py lines 327-350): shift a region by
`distance` along the compass heading `azimuth`, i.e. by the vector
`(distance * sin(radians azimuth), distance * cos(radians azimuth))`. -/
noncomputable def translate_polygon (s : Set PointR) (distance azimuth : ℝ) : Set PointR :=
  (fun p : PointR =>
    (p.1 + distance * Real.sin (radians azimuth),
     p.2 + distance * Real.cos (radians azimuth))) '' s

/-- The computational body of `buffer_polygon_along_azimuth`
(geometry.py lines 382-401): wrap the azimuth, transform the region to local
coordinates with `f`, translate forward by the azimuth and backward by
`azimuth - 180`, union with the original, translate that union by
`azimuth + 90` and `azimuth - 90`, union again, and transform back with
`g`. -/
noncomputable def buffer_core (f g : PointR → PointR) (region : Set PointR)
    (along across azimuth : ℝ) : Set PointR :=
  let az := wrap_to_180 azimuth
  let polygon_utm := f '' region
  let t1 := translate_polygon polygon_utm along az
  let t2 := translate_polygon polygon_utm along (az - 180)
  let u := t1 ∪ t2 ∪ polygon_utm
  let s1 := translate_polygon u across (az + 90)
  let s2 := translate_polygon u across (az - 90)
  g '' (s1 ∪ s2 ∪ u)

/-- The same algorithm as the specification words it (spec section 4.5):
steps (1)-(6), with the backward translation written as `azimuth + 180`
degrees rather than the source's `azimuth - 180`. -/
noncomputable def buffer_spec_steps (f g : PointR → PointR) (region : Set PointR)
    (along across azimuth : ℝ) : Set PointR :=
  let az := wrap_to_180 azimuth
  let localPoly := f '' region
  let fwd := translate_polygon localPoly along az
  let bwd := translate_polygon localPoly along (az + 180)
  let elong := fwd ∪ bwd ∪ localPoly
  let side1 := translate_polygon elong across (az + 90)
  let side2 := translate_polygon elong across (az - 90)
  g '' (side1 ∪ side2 ∪ elong)

/-- `buffer_polygon_along_azimuth` (geometry.py lines 353-406): polygon
validation, then distance validation, then the `try` block, whose
`get_utm_transforms` failure is wrapped as
`ValueError("Failed to buffer polygon along azimuth: ...")`.  `f` and `g` are
the transformer pair the external pyproj machinery would provide. -/
noncomputable def buffer_polygon_along_azimuth (f g : PointR → PointR) (arg : GeomArg)
    (along across : PyVal) (azimuth : ℝ) : Except GeoErr (Set PointR) :=
  match _validate_polygon arg with
  | some e => .error e
  | Option.none =>
    match validate_distances along across with
    | some e => .error e
    | Option.none =>
      match get_utm_transforms f g arg with
      | .error e => .error (.computation "Failed to buffer polygon along azimuth" e.describe)
      | .ok fg =>
          .ok (buffer_core fg.1 fg.2 (regionOf arg)
                ((along.numValue : ℚ) : ℝ) ((across.numValue : ℚ) : ℝ) azimuth)

/-- Success-path region of `minimum_rotated_rectangle`
(geometry.py lines 254-262): transform the polygon to local coordinates,
take the convex hull (the hull of a polygon is the hull of its exterior
vertices), apply shapely's external minimum-rotated-rectangle primitive
`mrrPrim`, and transform the result back pointwise. -/
noncomputable def minimum_rotated_rectangle_region (f g : PointR → PointR)
    (mrrPrim : Set PointR → Set PointR) (ring : List PointR) : Set PointR :=
  g '' mrrPrim (convexHull ℝ (f '' ptSet ring))

/-- `minimum_rotated_rectangle` (geometry.py lines 228-267): validation, then
the `try` block, whose failure is wrapped as
`ValueError("Failed to calculate minimum rotated rectangle: ...")`. -/
noncomputable def minimum_rotated_rectangle (f g : PointR → PointR)
    (mrrPrim : Set PointR → Set PointR) (arg : GeomArg) : Except GeoErr (Set PointR) :=
  match _validate_polygon arg with
  | some e => .error e
  | Option.none =>
    match get_utm_transforms f g arg with
    | .error e =>
        .error (.computation "Failed to calculate minimum rotated rectangle" e.describe)
    | .ok fg =>
        .ok (minimum_rotated_rectangle_region fg.1 fg.2 mrrPrim
              (match arg with | .poly p => p.ring | _ => []))

/-- The smallest element of a list of reals (`np.min` of a nonempty array;
0 for the empty list, which the source never meets). -/
def listMin : List ℝ → ℝ
  | [] => 0
  | x :: xs => xs.foldl min x

/-- The largest element of a list of reals (`np.max`). -/
def listMax : List ℝ → ℝ
  | [] => 0
  | x :: xs => xs.foldl max x

/-- The rotated x-coordinate of a point centered at `c` (geometry.py
line 304: `xr = xt * cos - yt * sin` on centered coordinates). -/
noncomputable def rotX (c : PointR) (θ : ℝ) (p : PointR) : ℝ :=
  (p.1 - c.1) * Real.cos θ - (p.2 - c.2) * Real.sin θ

/-- The rotated y-coordinate (geometry.py line 305:
`yr = xt * sin + yt * cos`). -/
noncomputable def rotY (c : PointR) (θ : ℝ) (p : PointR) : ℝ :=
  (p.1 - c.1) * Real.sin θ + (p.2 - c.2) * Real.cos θ

/-- The back-rotation of geometry.py lines 313-314: rotate by `-θ` and
re-center at `c`. -/
noncomputable def unrot (c : PointR) (θ : ℝ) (q : ℝ × ℝ) : PointR :=
  (q.1 * Real.cos (-θ) - q.2 * Real.sin (-θ) + c.1,
   q.1 * Real.sin (-θ) + q.2 * Real.cos (-θ) + c.2)

/-- The corner list built by `rotated_rectangle` (geometry.py lines 298-317):
center the points `pts` (the hull's exterior coordinates) at `c` (the hull's
centroid), rotate by the azimuth, take the axis-aligned bounding box of the
rotated points, and rotate the box's closed 5-corner ring back by the negated
azimuth, re-centering at `c`. -/
noncomputable def rotated_rectangle_corners (pts : List PointR) (c : PointR)
    (azimuth : ℝ) : List PointR :=
  let θ := radians azimuth
  let xr := pts.map (rotX c θ)
  let yr := pts.map (rotY c θ)
  let minxr := listMin xr
  let maxxr := listMax xr
  let minyr := listMin yr
  let maxyr := listMax yr
  let xbr := [minxr, minxr, maxxr, maxxr, minxr]
  let ybr := [minyr, maxyr, maxyr, minyr, minyr]
  (xbr.zip ybr).map (unrot c θ)

/-- The back-rotation of geometry.py lines 313-314 packaged as an affine map
of the plane (proof device: the rigid motion `q ↦ R_{-θ} q + c`). -/
noncomputable def unrotAff (c : PointR) (θ : ℝ) : (ℝ × ℝ) →ᵃ[ℝ] (ℝ × ℝ) :=
  (LinearMap.prod
      (Real.cos θ • LinearMap.fst ℝ ℝ ℝ + Real.sin θ • LinearMap.snd ℝ ℝ ℝ)
      ((-Real.sin θ) • LinearMap.fst ℝ ℝ ℝ + Real.cos θ • LinearMap.snd ℝ ℝ ℝ)).toAffineMap +
    AffineMap.const ℝ (ℝ × ℝ) c

/-- Success-path region of `rotated_rectangle` (geometry.py lines 292-318):
transform to local coordinates, take the convex hull, obtain its exterior
coordinate list and area centroid from the external shapely primitives
`hull_ext` and `centroidOf`, build the rotated bounding rectangle, and
transform its (convex) region back pointwise. -/
noncomputable def rotated_rectangle_region (f g : PointR → PointR)
    (hull_ext : Set PointR → List PointR) (centroidOf : Set PointR → PointR)
    (ring : List PointR) (azimuth : ℝ) : Set PointR :=
  let hullUtm := convexHull ℝ (f '' ptSet ring)
  g '' convexHull ℝ
    (ptSet (rotated_rectangle_corners (hull_ext hullUtm) (centroidOf hullUtm) azimuth))

/-- `rotated_rectangle` (geometry.py lines 270-323): validation, then the
`try` block, whose failure is wrapped as
`ValueError("Failed to compute rotated bounding rectangle: ...")`. -/
noncomputable def rotated_rectangle (f g : PointR → PointR)
    (hull_ext : Set PointR → List PointR) (centroidOf : Set PointR → PointR)
    (arg : GeomArg) (azimuth : ℝ) : Except GeoErr (Set PointR) :=
  match _validate_polygon arg with
  | some e => .error e
  | Option.none =>
    match get_utm_transforms f g arg with
    | .error e =>
        .error (.computation "Failed to compute rotated bounding rectangle" e.describe)
    | .ok fg =>
        .ok (rotated_rectangle_region fg.1 fg.2 hull_ext centroidOf
              (match arg with | .poly p => p.ring | _ => []) azimuth)

/-- A shapely geometry as accepted by `calculate_geographic_mean`: a `Point`,
a `LineString` (path) or a `Polygon` (contributing its exterior ring). -/
inductive SGeom where
  | point (x y : ℝ)
  | linestring (cs : List PointR)
  | polygon (ext : List PointR)

/-- An arbitrary Python object offered to `calculate_geographic_mean`: a
shapely geometry or something else. -/
inductive PyObj where
  | geomO (g : SGeom)
  | nonGeom (ty : String)

/-- The input of `calculate_geographic_mean`: a bare object or a Python
list of objects. -/
inductive MeanInput where
  | single (o : PyObj)
  | many (os : List PyObj)

/-- Whether the input passes the type check of geometry.py lines 87-92:
a geometry, or a list all of whose elements are geometries. -/
def MeanInput.accepted : MeanInput → Bool
  | .single (.geomO _) => true
  | .single (.nonGeom _) => false
  | .many os => os.all (fun o => match o with | .geomO _ => true | .nonGeom _ => false)

/-- Coordinates contributed by one geometry (geometry.py lines 95-102): a
point contributes itself, a linestring its coordinates, a polygon its
exterior-ring coordinates. -/
def SGeom.coordsOf : SGeom → List PointR
  | .point x y => [(x, y)]
  | .linestring cs => cs
  | .polygon ext => ext

/-- The geometries of an accepted input (the singleton wrapping of line 88,
or the list itself). -/
def MeanInput.geoms : MeanInput → List SGeom
  | .single (.geomO g) => [g]
  | .single (.nonGeom _) => []
  | .many os => os.filterMap (fun o => match o with | .geomO g => some g | .nonGeom _ => Option.none)

/-- All collected coordinates, in collection order. -/
def MeanInput.coords (inp : MeanInput) : List PointR :=
  (inp.geoms.map SGeom.coordsOf).flatten

/-- `calculate_geographic_mean` (geometry.py lines 75-115), with pymap3d's
`meanm` abstracted as the parameter `meanm : lats → lons → (lat, lon)`; the
result is the Shapely `Point(lon_mean, lat_mean)`. -/
def calculate_geographic_mean (meanm : List ℝ → List ℝ → ℝ × ℝ) (inp : MeanInput) :
    Except GeoErr PointR :=
  if inp.accepted = false then
    .error (.typeError "Input must be a Shapely geometry or a list of Shapely geometries.")
  else if inp.coords.length = 0 then
    .error (.emptyInput "No valid coordinates found in the provided geometries.")
  else
    .ok ((meanm (inp.coords.map Prod.snd) (inp.coords.map Prod.fst)).2,
         (meanm (inp.coords.map Prod.snd) (inp.coords.map Prod.fst)).1)

/-- Running cumulative sums: `cumsum_from a ds` is `np.cumsum` of `ds`
started from the accumulator `a`. -/
def cumsum_from (acc : ℝ) : List ℝ → List ℝ
  | [] => []
  | d :: ds => (acc + d) :: cumsum_from (acc + d) ds

/-- The azimuth appended for the final vertex (geometry.py lines 445-452):
for two or more vertices, the reverse azimuth reported by `vdist` from the
last vertex back to the second-to-last, plus 180, modulo 360; for fewer, 0.
`pts` is the list of (lat, wrapped lon) pairs. -/
noncomputable def lastAzimuthCalc (vd : ℝ → ℝ → ℝ → ℝ → ℝ × ℝ) (pts : List (ℝ × ℝ)) : ℝ :=
  match pts.reverse with
  | pn :: pm :: _ => wrap_to_360 ((vd pn.1 pn.2 pm.1 pm.2).2 + 180)
  | _ => 0

/-- `process_linestring` (geometry.py lines 408-463), with pymap3d's
ellipsoidal `vdist` abstracted as the parameter
`vd : lat1 → lon1 → lat2 → lon2 → (distance, azimuth)`.  `coords` is the
LineString's coordinate list in shapely's `(x, y) = (lon, lat)` order.
Returns `(latitudes, longitudes, azimuths, cumulative distances)`. -/
noncomputable def process_linestring (vd : ℝ → ℝ → ℝ → ℝ → ℝ × ℝ)
    (coords : List PointR) : List ℝ × List ℝ × List ℝ × List ℝ :=
  let track_lat := coords.map Prod.snd
  let track_lon := (coords.map Prod.fst).map (fun lon => wrap_to_180 lon)
  let pts := track_lat.zip track_lon
  let segs := pts.zip pts.tail
  let res := segs.map (fun s => vd s.1.1 s.1.2 s.2.1 s.2.2)
  let azimuths := res.map Prod.snd ++ [lastAzimuthCalc vd pts]
  let distances := res.map Prod.fst
  let along_track := 0 :: cumsum_from 0 distances
  (track_lat, track_lon, azimuths, along_track)

/-- A concrete stand-in geodesic oracle used by concrete instantiations:
every segment is 1 meter long with azimuth 42. -/
def vd0 : ℝ → ℝ → ℝ → ℝ → ℝ × ℝ := fun _ _ _ _ => (1, 42)

/-- A concrete stand-in spherical-mean oracle. -/
def meanm0 : List ℝ → List ℝ → ℝ × ℝ := fun _ _ => (0, 0)

/-- `check_distance` passes exactly on strictly positive Python floats. -/
theorem check_distance_none_iff (k : String) (v : PyVal) :
    check_distance k v = Option.none ↔ v.isPosFloat = true := by
  cases v with
  | float x =>
      by_cases h : x ≤ 0
      · simp [check_distance, PyVal.isPosFloat, h, not_lt.mpr h]
      · simp [check_distance, PyVal.isPosFloat, h, not_le.mp h]
  | int n => simp [check_distance, PyVal.isPosFloat]
  | str s => simp [check_distance, PyVal.isPosFloat]
  | noneV => simp [check_distance, PyVal.isPosFloat]

/-- Any error produced by `check_distance` is an `invalidParameter` error. -/
theorem check_distance_some (k : String) (v : PyVal) (e : GeoErr)
    (h : check_distance k v = some e) : ∃ m, e = GeoErr.invalidParameter m := by
  cases v with
  | float x =>
      by_cases hx : x ≤ 0
      · simp [check_distance, hx] at h
        exact ⟨_, h.symm⟩
      · simp [check_distance, hx] at h
  | int n => exact ⟨_, (Option.some.injEq _ _ ▸ h).symm⟩
  | str s => exact ⟨_, (Option.some.injEq _ _ ▸ h).symm⟩
  | noneV => exact ⟨_, (Option.some.injEq _ _ ▸ h).symm⟩

/-- The distance-validation loop passes exactly when both distances are
strictly positive Python floats. -/
theorem validate_distances_none_iff (a b : PyVal) :
    validate_distances a b = Option.none ↔
      (a.isPosFloat = true ∧ b.isPosFloat = true) := by
  unfold validate_distances
  cases h : check_distance "along_track_distance" a with
  | some e =>
      have ha : ¬ a.isPosFloat = true := by
        intro hc
        rw [(check_distance_none_iff "along_track_distance" a).mpr hc] at h
        cases h
      simp [ha]
  | none =>
      have ha := (check_distance_none_iff "along_track_distance" a).mp h
      simp [ha, check_distance_none_iff]

/-- Any error produced by the distance-validation loop is an
`invalidParameter` error. -/
theorem validate_distances_invalidParameter (a b : PyVal) (e : GeoErr)
    (h : validate_distances a b = some e) : ∃ m, e = GeoErr.invalidParameter m := by
  unfold validate_distances at h
  cases ha : check_distance "along_track_distance" a with
  | some e1 =>
      rw [ha] at h
      exact check_distance_some _ a e1 ha |>.imp fun m hm => by
        cases h; exact hm
  | none =>
      rw [ha] at h
      exact check_distance_some _ b e h

/-- C1 counterexample: the Python int `5` is of numeric type and strictly
positive, so the claim predicts acceptance, yet the source's
`isinstance(value, float)` test rejects it with the invalid-parameter
(type) error. -/
theorem C1_counterexample :
    (PyVal.int 5).isNumeric = true ∧ 0 < (PyVal.int 5).numValue ∧
    ¬ (¬ (PyVal.int 5).isNumeric = true ∨ (PyVal.int 5).numValue ≤ 0) ∧
    validate_distances (PyVal.int 5) (PyVal.float 1) =
      some (GeoErr.invalidParameter "Invalid type for along_track_distance") := by
  refine ⟨rfl, by decide, by decide, rfl⟩

/-- C1 (amended): when the polygon argument passes (or, for `None`, skips)
validation, `buffer_polygon_along_azimuth` raises an
`InvalidParameterError`-class error exactly when `along_track_distance` or
`across_track_distance` is not of Python float type or is non-positive (a
strictly positive int is rejected, not coerced); and whenever the distance
validation raises, the result does not depend on the coordinate-transform
pair, i.e. the error is raised before any transform is attempted. -/
theorem C1_invalid_parameter_exactly (f g f2 g2 : PointR → PointR) (arg : GeomArg)
    (hpoly : _validate_polygon arg = Option.none) (along across : PyVal) (az : ℝ) :
    ((∃ m, buffer_polygon_along_azimuth f g arg along across az =
        .error (.invalidParameter m)) ↔
      ¬ (along.isPosFloat = true ∧ across.isPosFloat = true)) ∧
    (validate_distances along across ≠ Option.none →
      buffer_polygon_along_azimuth f g arg along across az =
        buffer_polygon_along_azimuth f2 g2 arg along across az) := by
  cases hv : validate_distances along across with
  | some e =>
      have hne : ¬ (along.isPosFloat = true ∧ across.isPosFloat = true) := by
        intro hc
        rw [(validate_distances_none_iff along across).mpr hc] at hv
        cases hv
      obtain ⟨m, rfl⟩ := validate_distances_invalidParameter along across e hv
      refine ⟨⟨fun _ => hne, fun _ => ⟨m, ?_⟩⟩, fun _ => ?_⟩
      · simp [buffer_polygon_along_azimuth, hpoly, hv]
      · simp [buffer_polygon_along_azimuth, hpoly, hv]
  | none =>
      have hyes := (validate_distances_none_iff along across).mp hv
      refine ⟨⟨?_, fun hc => absurd hyes hc⟩, fun hc => absurd rfl hc⟩
      rintro ⟨m, hm⟩
      simp only [buffer_polygon_along_azimuth, hpoly, hv] at hm
      cases harg : get_utm_transforms f g arg with
      | error e1 => rw [harg] at hm; simp at hm
      | ok fg => rw [harg] at hm; simp at hm

/-- C1 witness: a concrete run in which the `int` distance `3` (positive,
numeric, but not a float) makes the function fail with an
invalid-parameter error, independently of any transforms. -/
theorem C1_witness :
    (∃ m, buffer_polygon_along_azimuth id id GeomArg.noneV (PyVal.int 3) (PyVal.float 1) 0 =
        .error (.invalidParameter m)) ∧
    buffer_polygon_along_azimuth id id GeomArg.noneV (PyVal.int 3) (PyVal.float 1) 0 =
      buffer_polygon_along_azimuth (fun p => (p.2, p.1)) (fun p => (p.2, p.1))
        GeomArg.noneV (PyVal.int 3) (PyVal.float 1) 0 := by
  have h := C1_invalid_parameter_exactly id id (fun p => (p.2, p.1)) (fun p => (p.2, p.1))
    GeomArg.noneV rfl (PyVal.int 3) (PyVal.float 1) 0
  exact ⟨h.1.mpr (by decide), h.2 (by decide)⟩

/-- C2 counterexample: `180` lies in the claimed no-op interval
`[-180, 180]`, but `wrap_to_180 180 = -180 ≠ 180`. -/
theorem C2_counterexample :
    -180 ≤ (180 : ℚ) ∧ (180 : ℚ) ≤ 180 ∧
    wrap_to_180 (180 : ℚ) = -180 ∧ wrap_to_180 (180 : ℚ) ≠ 180 := by
  have h : ⌊((180 : ℚ) + 180) / 360⌋ = 1 := by
    rw [Int.floor_eq_iff]
    norm_num
  refine ⟨by norm_num, by norm_num, ?_, ?_⟩ <;> unfold wrap_to_180 <;> rw [h] <;> norm_num

/-- C2 (amended): wrapping is a no-op on the half-open interval
`[-180, 180)` (at `180` itself the wrap returns `-180`);
`wrap_to_180 200 = -160` and `wrap_to_180 (-200) = 160`. -/
theorem C2_wrap_behaviour :
    (∀ a : ℚ, -180 ≤ a → a < 180 → wrap_to_180 a = a) ∧
    wrap_to_180 (200 : ℚ) = -160 ∧ wrap_to_180 (-200 : ℚ) = 160 := by
  have h200 : ⌊((200 : ℚ) + 180) / 360⌋ = 1 := by
    rw [Int.floor_eq_iff]
    norm_num
  have hm200 : ⌊((-200 : ℚ) + 180) / 360⌋ = -1 := by
    rw [Int.floor_eq_iff]
    norm_num
  refine ⟨fun a h1 h2 => ?_, ?_, ?_⟩
  · have hfloor : ⌊(a + 180) / 360⌋ = 0 := by
      rw [Int.floor_eq_zero_iff]
      constructor
      · have : (0 : ℚ) ≤ a + 180 := by linarith
        positivity
      · rw [div_lt_one (by norm_num : (0 : ℚ) < 360)]
        linarith
    unfold wrap_to_180
    rw [hfloor]
    push_cast
    ring
  · unfold wrap_to_180
    rw [h200]
    norm_num
  · unfold wrap_to_180
    rw [hm200]
    norm_num

/-- C2 witness: the no-op case at the concrete azimuth `0`. -/
theorem C2_witness :
    (-180 ≤ (0 : ℚ) ∧ (0 : ℚ) < 180) ∧ wrap_to_180 (0 : ℚ) = 0 :=
  ⟨by decide, C2_wrap_behaviour.1 0 (by decide) (by decide)⟩

/-- C9: `calculate_geographic_mean` raises the empty-input error exactly when
the accepted geometries contribute zero coordinates, the unsupported-geometry
(type) error when the input is not a point/path/polygon or a list of these,
and otherwise returns a single geographic point. -/
theorem C9_mean_trichotomy (meanm : List ℝ → List ℝ → ℝ × ℝ) (inp : MeanInput) :
    (inp.accepted = true → inp.coords = [] →
      calculate_geographic_mean meanm inp =
        .error (.emptyInput "No valid coordinates found in the provided geometries.")) ∧
    (inp.accepted = false →
      calculate_geographic_mean meanm inp =
        .error (.typeError "Input must be a Shapely geometry or a list of Shapely geometries.")) ∧
    (inp.accepted = true → inp.coords ≠ [] →
      ∃ pt, calculate_geographic_mean meanm inp = .ok pt) := by
  refine ⟨fun ha hc => ?_, fun ha => ?_, fun ha hc => ?_⟩
  · simp [calculate_geographic_mean, ha, hc]
  · simp [calculate_geographic_mean, ha]
  · refine ⟨((meanm (inp.coords.map Prod.snd) (inp.coords.map Prod.fst)).2,
      (meanm (inp.coords.map Prod.snd) (inp.coords.map Prod.fst)).1), ?_⟩
    simp [calculate_geographic_mean, ha, List.length_eq_zero, hc]

/-- C9 witness: a single point input is accepted, contributes one coordinate,
and yields a geographic mean point. -/
theorem C9_witness :
    ((MeanInput.single (PyObj.geomO (SGeom.point 1 2))).accepted = true ∧
      (MeanInput.single (PyObj.geomO (SGeom.point 1 2))).coords ≠ []) ∧
    ∃ pt, calculate_geographic_mean meanm0
      (MeanInput.single (PyObj.geomO (SGeom.point 1 2))) = .ok pt :=
  ⟨⟨rfl, by simp [MeanInput.coords, MeanInput.geoms, SGeom.coordsOf]⟩,
    (C9_mean_trichotomy meanm0 _).2.2 rfl
      (by simp [MeanInput.coords, MeanInput.geoms, SGeom.coordsOf])⟩

/-- C10: a `None` polygon argument is not rejected by `_validate_polygon`
(validation is skipped), so all three entry points fail mid-pipeline at the
`get_utm_transforms` type check, reported as the wrapped computation
`ValueError` rather than an immediate invalid-geometry validation error. -/
theorem C10_none_bypasses_validation (f g : PointR → PointR)
    (mrrPrim : Set PointR → Set PointR) (hull_ext : Set PointR → List PointR)
    (centroidOf : Set PointR → PointR) (along across : PyVal) (az : ℝ)
    (hd : validate_distances along across = Option.none) :
    _validate_polygon GeomArg.noneV = Option.none ∧
    minimum_rotated_rectangle f g mrrPrim GeomArg.noneV =
      .error (.computation "Failed to calculate minimum rotated rectangle"
        "Input must be a Shapely geometry or a list of geometries.") ∧
    rotated_rectangle f g hull_ext centroidOf GeomArg.noneV az =
      .error (.computation "Failed to compute rotated bounding rectangle"
        "Input must be a Shapely geometry or a list of geometries.") ∧
    buffer_polygon_along_azimuth f g GeomArg.noneV along across az =
      .error (.computation "Failed to buffer polygon along azimuth"
        "Input must be a Shapely geometry or a list of geometries.") := by
  refine ⟨rfl, rfl, rfl, ?_⟩
  simp [buffer_polygon_along_azimuth, hd, get_utm_transforms, GeoErr.describe,
    _validate_polygon]

/-- C10 witness: concrete transforms and valid `float` distances, `None`
polygon. -/
theorem C10_witness :
    validate_distances (PyVal.float 1) (PyVal.float 1) = Option.none ∧
    (_validate_polygon GeomArg.noneV = Option.none ∧
      minimum_rotated_rectangle id id id GeomArg.noneV =
        .error (.computation "Failed to calculate minimum rotated rectangle"
          "Input must be a Shapely geometry or a list of geometries.") ∧
      rotated_rectangle id id (fun _ => []) (fun _ => (0, 0)) GeomArg.noneV 0 =
        .error (.computation "Failed to compute rotated bounding rectangle"
          "Input must be a Shapely geometry or a list of geometries.") ∧
      buffer_polygon_along_azimuth id id GeomArg.noneV (PyVal.float 1) (PyVal.float 1) 0 =
        .error (.computation "Failed to buffer polygon along azimuth"
          "Input must be a Shapely geometry or a list of geometries.")) :=
  ⟨by decide,
    C10_none_bypasses_validation id id id (fun _ => []) (fun _ => (0, 0))
      (PyVal.float 1) (PyVal.float 1) 0 (by decide)⟩

/-- Cumulative sums have the same length as the summed list. -/
theorem cumsum_from_length (acc : ℝ) (ds : List ℝ) :
    (cumsum_from acc ds).length = ds.length := by
  induction ds generalizing acc with
  | nil => rfl
  | cons d ds ih => simp [cumsum_from, ih]

/-- Cumulative sums of nonnegative increments are non-decreasing from the
start value. -/
theorem cumsum_from_chain (acc : ℝ) (ds : List ℝ) (h : ∀ d ∈ ds, 0 ≤ d) :
    List.Chain' (· ≤ ·) (acc :: cumsum_from acc ds) := by
  induction ds generalizing acc with
  | nil => simp [cumsum_from]
  | cons d ds ih =>
      have h0 : 0 ≤ d := h d (by simp)
      have htail := ih (acc + d) (fun x hx => h x (by simp [hx]))
      rw [cumsum_from]
      exact List.chain'_cons.mpr ⟨by linarith, htail⟩

/-- C6: for a nonempty coordinate list, `process_linestring` returns four
sequences of the input's length, with a non-decreasing cumulative distance
sequence starting at 0 (given that the external geodesic oracle reports
nonnegative distances, its documented contract). -/
theorem C6_track_invariants (vd : ℝ → ℝ → ℝ → ℝ → ℝ × ℝ)
    (hvd : ∀ a b c d, 0 ≤ (vd a b c d).1) (coords : List PointR) (hne : coords ≠ []) :
    (process_linestring vd coords).1.length = coords.length ∧
    (process_linestring vd coords).2.1.length = coords.length ∧
    (process_linestring vd coords).2.2.1.length = coords.length ∧
    (process_linestring vd coords).2.2.2.length = coords.length ∧
    List.Chain' (· ≤ ·) (process_linestring vd coords).2.2.2 ∧
    (process_linestring vd coords).2.2.2.head? = some 0 := by
  have hN : 0 < coords.length := List.length_pos.mpr hne
  refine ⟨by simp [process_linestring], by simp [process_linestring], ?_, ?_, ?_, ?_⟩
  · simp only [process_linestring, List.length_append, List.length_map, List.length_zip,
      List.length_tail, List.length_cons, List.length_nil, min_self]
    omega
  · simp only [process_linestring, List.length_cons, cumsum_from_length, List.length_map,
      List.length_zip, List.length_tail, min_self]
    omega
  · simp only [process_linestring]
    apply cumsum_from_chain
    intro d hd
    simp only [List.map_map, List.mem_map, Function.comp] at hd
    obtain ⟨s, _, rfl⟩ := hd
    exact hvd _ _ _ _
  · simp [process_linestring]

/-- C6 witness: a two-vertex path with the stand-in geodesic oracle. -/
theorem C6_witness :
    ((∀ a b c d, 0 ≤ (vd0 a b c d).1) ∧ ([((0 : ℝ), (0 : ℝ)), (0, 1)] : List PointR) ≠ []) ∧
    ((process_linestring vd0 [((0 : ℝ), (0 : ℝ)), (0, 1)]).1.length = 2 ∧
      (process_linestring vd0 [((0 : ℝ), (0 : ℝ)), (0, 1)]).2.1.length = 2 ∧
      (process_linestring vd0 [((0 : ℝ), (0 : ℝ)), (0, 1)]).2.2.1.length = 2 ∧
      (process_linestring vd0 [((0 : ℝ), (0 : ℝ)), (0, 1)]).2.2.2.length = 2 ∧
      List.Chain' (· ≤ ·) (process_linestring vd0 [((0 : ℝ), (0 : ℝ)), (0, 1)]).2.2.2 ∧
      (process_linestring vd0 [((0 : ℝ), (0 : ℝ)), (0, 1)]).2.2.2.head? = some 0) :=
  ⟨⟨fun _ _ _ _ => zero_le_one, by simp⟩,
    C6_track_invariants vd0 (fun _ _ _ _ => zero_le_one) _ (by simp)⟩

/-- C7: with at least two vertices, the final azimuth entry is the reverse
geodesic azimuth of the last segment (queried from the last vertex back to
the second-to-last, on wrapped longitudes) plus 180, wrapped to [0, 360);
with a single vertex, the azimuth sequence is exactly `[0]` and the
cumulative distance sequence is exactly `[0]`. -/
theorem C7_last_azimuth (vd : ℝ → ℝ → ℝ → ℝ → ℝ × ℝ) (coords : List PointR) :
    (∀ pre p q, coords = pre ++ [p, q] →
      (process_linestring vd coords).2.2.1.getLast? =
        some (wrap_to_360 ((vd q.2 (wrap_to_180 q.1) p.2 (wrap_to_180 p.1)).2 + 180))) ∧
    (∀ p, coords = [p] →
      (process_linestring vd coords).2.2.1 = [0] ∧
      (process_linestring vd coords).2.2.2 = [0]) := by
  constructor
  · rintro pre p q rfl
    simp only [process_linestring, List.getLast?_concat]
    have hpts : ((pre ++ [p, q]).map Prod.snd).zip
        (((pre ++ [p, q]).map Prod.fst).map (fun lon => wrap_to_180 lon)) =
        (pre ++ [p, q]).map (fun r => (r.2, wrap_to_180 r.1)) := by
      rw [List.map_map, List.zip_map']
      rfl
    rw [hpts]
    have hrev : ((pre ++ [p, q]).map (fun r => (r.2, wrap_to_180 r.1))).reverse =
        (q.2, wrap_to_180 q.1) :: (p.2, wrap_to_180 p.1) ::
          (pre.map (fun r => (r.2, wrap_to_180 r.1))).reverse := by
      simp
    unfold lastAzimuthCalc
    rw [hrev]
  · rintro p rfl
    constructor
    · simp [process_linestring, lastAzimuthCalc]
    · simp [process_linestring, cumsum_from]

/-- C7 witness: the two-vertex case at concrete coordinates. -/
theorem C7_witness :
    (process_linestring vd0 [((0 : ℝ), (0 : ℝ)), (0, 1)]).2.2.1.getLast? =
      some (wrap_to_360 ((vd0 1 (wrap_to_180 0) 0 (wrap_to_180 0)).2 + 180)) :=
  (C7_last_azimuth vd0 [((0 : ℝ), (0 : ℝ)), (0, 1)]).1 [] (0, 0) (0, 1) rfl

/-- Adding 180 degrees adds π radians. -/
theorem radians_add_180 (a : ℝ) : radians (a + 180) = radians a + Real.pi := by
  unfold radians
  ring

/-- Subtracting 180 degrees subtracts π radians. -/
theorem radians_sub_180 (a : ℝ) : radians (a - 180) = radians a - Real.pi := by
  unfold radians
  ring

/-- Translating along `azimuth - 180` equals translating along
`azimuth + 180`: both are the backward direction. -/
theorem translate_polygon_sub_180 (s : Set PointR) (d a : ℝ) :
    translate_polygon s d (a - 180) = translate_polygon s d (a + 180) := by
  unfold translate_polygon
  rw [radians_sub_180, radians_add_180, Real.sin_sub_pi, Real.sin_add_pi,
    Real.cos_sub_pi, Real.cos_add_pi]

/-- C5: the computational body of `buffer_polygon_along_azimuth` performs
exactly the specified steps: local transform; forward translation along the
wrapped azimuth and backward translation (azimuth + 180, which the source
writes as azimuth - 180, an identical direction) by the along-track
distance; union with the original; sideways translations (azimuth ± 90) by
the across-track distance; union with the previous union; inverse
transform. -/
theorem C5_buffer_algorithm (f g : PointR → PointR) (region : Set PointR)
    (along across azimuth : ℝ) :
    buffer_core f g region along across azimuth =
      buffer_spec_steps f g region along across azimuth := by
  simp only [buffer_core, buffer_spec_steps]
  rw [translate_polygon_sub_180]

/-- C4: the buffered region contains the original region and has measure at
least the original's, for any transform pair satisfying the round-trip
contract (inverse after forward is the identity). -/
theorem C4_buffer_monotone (f g : PointR → PointR) (hfg : Function.LeftInverse g f)
    (region : Set PointR) (along across azimuth : ℝ)
    (halong : 0 < along) (hacross : 0 < across) :
    region ⊆ buffer_core f g region along across azimuth ∧
    MeasureTheory.volume region ≤
      MeasureTheory.volume (buffer_core f g region along across azimuth) := by
  have hsub : region ⊆ buffer_core f g region along across azimuth := by
    intro p hp
    simp only [buffer_core]
    exact ⟨f p, Or.inr (Or.inr ⟨p, hp, rfl⟩), hfg p⟩
  exact ⟨hsub, MeasureTheory.measure_mono hsub⟩

/-- C4 witness: identity transforms, unit distances, azimuth 0, a singleton
region. -/
theorem C4_witness :
    (Function.LeftInverse (id : PointR → PointR) id ∧ (0 : ℝ) < 1) ∧
    (({((0 : ℝ), (0 : ℝ))} : Set PointR) ⊆
        buffer_core id id {((0 : ℝ), (0 : ℝ))} 1 1 0 ∧
      MeasureTheory.volume ({((0 : ℝ), (0 : ℝ))} : Set PointR) ≤
        MeasureTheory.volume (buffer_core id id {((0 : ℝ), (0 : ℝ))} 1 1 0)) :=
  ⟨⟨fun _ => rfl, one_pos⟩,
    C4_buffer_monotone id id (fun _ => rfl) {((0 : ℝ), (0 : ℝ))} 1 1 0 one_pos one_pos⟩

/-- `wrap_to_180` subtracts an integer multiple of 360. -/
theorem wrap_to_180_eq_sub (a : ℝ) :
    wrap_to_180 a = a - 360 * (⌊(a + 180) / 360⌋ : ℤ) := by
  unfold wrap_to_180
  ring

/-- In radians, wrapping subtracts an integer multiple of 2π. -/
theorem radians_wrap_to_180 (a : ℝ) :
    radians (wrap_to_180 a) =
      radians a - (⌊(a + 180) / 360⌋ : ℤ) * (2 * Real.pi) := by
  rw [wrap_to_180_eq_sub]
  unfold radians
  ring

/-- Cosine is unchanged by azimuth wrapping. -/
theorem cos_radians_wrap (a : ℝ) :
    Real.cos (radians (wrap_to_180 a)) = Real.cos (radians a) := by
  rw [radians_wrap_to_180, Real.cos_sub_int_mul_two_pi]

/-- Sine is unchanged by azimuth wrapping. -/
theorem sin_radians_wrap (a : ℝ) :
    Real.sin (radians (wrap_to_180 a)) = Real.sin (radians a) := by
  rw [radians_wrap_to_180, Real.sin_sub_int_mul_two_pi]

/-- Adding a full number of degree turns adds full radian turns. -/
theorem radians_add_360_mul (a : ℝ) (n : ℤ) :
    radians (a + 360 * n) = radians a + n * (2 * Real.pi) := by
  unfold radians
  ring

/-- The corner construction only sees the azimuth through the sine and
cosine of its radian measure. -/
theorem rotated_rectangle_corners_congr (pts : List PointR) (c : PointR) (a b : ℝ)
    (hc : Real.cos (radians a) = Real.cos (radians b))
    (hs : Real.sin (radians a) = Real.sin (radians b)) :
    rotated_rectangle_corners pts c a = rotated_rectangle_corners pts c b := by
  have hx : rotX c (radians a) = rotX c (radians b) := by
    funext p
    unfold rotX
    rw [hc, hs]
  have hy : rotY c (radians a) = rotY c (radians b) := by
    funext p
    unfold rotY
    rw [hc, hs]
  have hu : unrot c (radians a) = unrot c (radians b) := by
    funext q
    unfold unrot
    rw [Real.cos_neg, Real.cos_neg, Real.sin_neg, Real.sin_neg, hc, hs]
  simp only [rotated_rectangle_corners, hx, hy, hu]

/-- C8: `rotated_rectangle` produces the same rectangle at azimuth `az` as at
`wrap_to_180 az` (the code never wraps explicitly, but sine and cosine are
360°-periodic, so the results coincide), and azimuths differing by any
multiple of 360° give identical results; likewise for the full returned
region for any transforms, hull and centroid oracles. -/
theorem C8_rotated_rectangle_wrap (pts : List PointR) (c : PointR) (az : ℝ) (n : ℤ)
    (f g : PointR → PointR) (hull_ext : Set PointR → List PointR)
    (centroidOf : Set PointR → PointR) (ringL : List PointR) :
    rotated_rectangle_corners pts c az =
      rotated_rectangle_corners pts c (wrap_to_180 az) ∧
    rotated_rectangle_corners pts c (az + 360 * n) =
      rotated_rectangle_corners pts c az ∧
    rotated_rectangle_region f g hull_ext centroidOf ringL az =
      rotated_rectangle_region f g hull_ext centroidOf ringL (wrap_to_180 az) := by
  refine ⟨rotated_rectangle_corners_congr pts c az (wrap_to_180 az)
      (cos_radians_wrap az).symm (sin_radians_wrap az).symm, ?_, ?_⟩
  · apply rotated_rectangle_corners_congr
    · rw [radians_add_360_mul, Real.cos_add_int_mul_two_pi]
    · rw [radians_add_360_mul, Real.sin_add_int_mul_two_pi]
  · simp only [rotated_rectangle_region]
    exact congrArg (fun l => g '' convexHull ℝ (ptSet l))
      (rotated_rectangle_corners_congr _ _ az (wrap_to_180 az)
        (cos_radians_wrap az).symm (sin_radians_wrap az).symm)

/-- `foldl min` never exceeds its initial accumulator. -/
theorem foldl_min_le_init (xs : List ℝ) (a : ℝ) : xs.foldl min a ≤ a := by
  induction xs generalizing a with
  | nil => exact le_refl a
  | cons x xs ih => exact le_trans (ih (min a x)) (min_le_left a x)

/-- `foldl min` never exceeds any list member. -/
theorem foldl_min_le_mem (xs : List ℝ) (x : ℝ) (hx : x ∈ xs) :
    ∀ a, xs.foldl min a ≤ x := by
  induction xs with
  | nil => cases hx
  | cons y ys ih =>
      intro a
      rcases List.mem_cons.mp hx with h | h
      · subst h
        exact le_trans (foldl_min_le_init ys (min a x)) (min_le_right a x)
      · exact ih h (min a y)

/-- `foldl max` is at least its initial accumulator. -/
theorem le_foldl_max_init (xs : List ℝ) (a : ℝ) : a ≤ xs.foldl max a := by
  induction xs generalizing a with
  | nil => exact le_refl a
  | cons x xs ih => exact le_trans (le_max_left a x) (ih (max a x))

/-- `foldl max` is at least any list member. -/
theorem le_foldl_max_mem (xs : List ℝ) (x : ℝ) (hx : x ∈ xs) :
    ∀ a, x ≤ xs.foldl max a := by
  induction xs with
  | nil => cases hx
  | cons y ys ih =>
      intro a
      rcases List.mem_cons.mp hx with h | h
      · subst h
        exact le_trans (le_max_right a x) (le_foldl_max_init ys (max a x))
      · exact ih h (max a y)

/-- `listMin` bounds every member from below. -/
theorem listMin_le (l : List ℝ) (x : ℝ) (hx : x ∈ l) : listMin l ≤ x := by
  cases l with
  | nil => cases hx
  | cons y ys =>
      rcases List.mem_cons.mp hx with h | h
      · subst h
        exact foldl_min_le_init ys x
      · exact foldl_min_le_mem ys x h y

/-- `listMax` bounds every member from above. -/
theorem le_listMax (l : List ℝ) (x : ℝ) (hx : x ∈ l) : x ≤ listMax l := by
  cases l with
  | nil => cases hx
  | cons y ys =>
      rcases List.mem_cons.mp hx with h | h
      · subst h
        exact le_foldl_max_init ys x
      · exact le_foldl_max_mem ys x h y

/-- The affine back-rotation computes exactly the source's corner formula. -/
theorem unrotAff_apply (c : PointR) (θ : ℝ) (q : ℝ × ℝ) :
    unrotAff c θ q = unrot c θ q := by
  unfold unrotAff unrot
  rw [Prod.ext_iff]
  constructor
  · simp only [AffineMap.coe_add, Pi.add_apply, LinearMap.coe_toAffineMap,
      AffineMap.const_apply, LinearMap.prod_apply, Pi.prod, LinearMap.add_apply,
      LinearMap.smul_apply, LinearMap.fst_apply, LinearMap.snd_apply, smul_eq_mul,
      Real.cos_neg, Real.sin_neg, Prod.fst_add]
    ring
  · simp only [AffineMap.coe_add, Pi.add_apply, LinearMap.coe_toAffineMap,
      AffineMap.const_apply, LinearMap.prod_apply, Pi.prod, LinearMap.add_apply,
      LinearMap.smul_apply, LinearMap.fst_apply, LinearMap.snd_apply, smul_eq_mul,
      Real.cos_neg, Real.sin_neg, Prod.snd_add]
    ring

/-- Back-rotating the rotated coordinates of a point recovers the point. -/
theorem unrot_rot (c : PointR) (θ : ℝ) (p : PointR) :
    unrot c θ (rotX c θ p, rotY c θ p) = p := by
  have hcs := Real.sin_sq_add_cos_sq θ
  unfold unrot rotX rotY
  rw [Real.cos_neg, Real.sin_neg]
  refine Prod.ext ?_ ?_
  · show ((p.1 - c.1) * Real.cos θ - (p.2 - c.2) * Real.sin θ) * Real.cos θ -
      ((p.1 - c.1) * Real.sin θ + (p.2 - c.2) * Real.cos θ) * -Real.sin θ + c.1 = p.1
    linear_combination (p.1 - c.1) * hcs
  · show ((p.1 - c.1) * Real.cos θ - (p.2 - c.2) * Real.sin θ) * -Real.sin θ +
      ((p.1 - c.1) * Real.sin θ + (p.2 - c.2) * Real.cos θ) * Real.cos θ + c.2 = p.2
    linear_combination (p.2 - c.2) * hcs

/-- Mapping a list commutes with taking point sets. -/
theorem ptSet_map (f : PointR → PointR) (l : List PointR) :
    ptSet (l.map f) = f '' ptSet l := by
  ext q
  simp [ptSet]

/-- The convex hull of the four box corners is the box. -/
theorem convexHull_box_corners (x1 x2 y1 y2 : ℝ) (hx : x1 ≤ x2) (hy : y1 ≤ y2) :
    convexHull ℝ (({x1, x2} : Set ℝ) ×ˢ ({y1, y2} : Set ℝ)) =
      Set.Icc x1 x2 ×ˢ Set.Icc y1 y2 := by
  rw [convexHull_prod, convexHull_pair, convexHull_pair, segment_eq_Icc hx,
    segment_eq_Icc hy]

/-- The four box corners all appear in the closed 5-point bounding ring of
geometry.py lines 309-310. -/
theorem box_corners_subset_zip (x1 x2 y1 y2 : ℝ) :
    (({x1, x2} : Set ℝ) ×ˢ ({y1, y2} : Set ℝ)) ⊆
      ptSet ([x1, x1, x2, x2, x1].zip [y1, y2, y2, y1, y1]) := by
  rintro ⟨a, b⟩ ⟨ha, hb⟩
  simp only [Set.mem_insert_iff, Set.mem_singleton_iff] at ha hb
  rcases ha with rfl | rfl <;> rcases hb with rfl | rfl <;> simp [ptSet]

/-- Core containment: every input point lies in the convex hull of the
rotated-rectangle corner list, for any center and azimuth. -/
theorem mem_hull_rotated_rectangle_corners (pts : List PointR) (c : PointR) (az : ℝ)
    (p : PointR) (hp : p ∈ pts) :
    p ∈ convexHull ℝ (ptSet (rotated_rectangle_corners pts c az)) := by
  simp only [rotated_rectangle_corners]
  set θ := radians az with hθ
  set xr := pts.map (rotX c θ) with hxr
  set yr := pts.map (rotY c θ) with hyr
  set x1 := listMin xr with hx1def
  set x2 := listMax xr with hx2def
  set y1 := listMin yr with hy1def
  set y2 := listMax yr with hy2def
  have hpx : rotX c θ p ∈ xr := hxr ▸ List.mem_map_of_mem (rotX c θ) hp
  have hpy : rotY c θ p ∈ yr := hyr ▸ List.mem_map_of_mem (rotY c θ) hp
  have hx1 : x1 ≤ rotX c θ p := listMin_le xr _ hpx
  have hx2 : rotX c θ p ≤ x2 := le_listMax xr _ hpx
  have hy1 : y1 ≤ rotY c θ p := listMin_le yr _ hpy
  have hy2 : rotY c θ p ≤ y2 := le_listMax yr _ hpy
  have hmem : (rotX c θ p, rotY c θ p) ∈
      convexHull ℝ (({x1, x2} : Set ℝ) ×ˢ ({y1, y2} : Set ℝ)) := by
    rw [convexHull_box_corners x1 x2 y1 y2 (le_trans hx1 hx2) (le_trans hy1 hy2)]
    exact ⟨⟨hx1, hx2⟩, ⟨hy1, hy2⟩⟩
  have himg : p ∈ unrotAff c θ ''
      convexHull ℝ (({x1, x2} : Set ℝ) ×ˢ ({y1, y2} : Set ℝ)) := by
    refine ⟨(rotX c θ p, rotY c θ p), hmem, ?_⟩
    rw [unrotAff_apply]
    exact unrot_rot c θ p
  rw [AffineMap.image_convexHull] at himg
  refine convexHull_mono ?_ himg
  intro q hq
  obtain ⟨b, hb, rfl⟩ := hq
  rw [ptSet_map]
  exact ⟨b, box_corners_subset_zip x1 x2 y1 y2 hb, (unrotAff_apply c θ b).symm⟩

/-- C3: every vertex of the input polygon lies inside both the returned
minimum rotated rectangle and the returned azimuth-specified rectangle, for
any azimuth, given the external collaborators' contracts: the transform pair
round-trips, the minimum-rotated-rectangle primitive contains its input, and
the convex-hull primitive's exterior ring spans a hull containing the
transformed vertices. -/
theorem C3_rectangles_contain (f g : PointR → PointR)
    (hfg : Function.LeftInverse g f)
    (mrrPrim : Set PointR → Set PointR) (hmrr : ∀ s, s ⊆ mrrPrim s)
    (hull_ext : Set PointR → List PointR) (centroidOf : Set PointR → PointR)
    (ringL : List PointR)
    (hhull : f '' ptSet ringL ⊆
      convexHull ℝ (ptSet (hull_ext (convexHull ℝ (f '' ptSet ringL)))))
    (az : ℝ) (v : PointR) (hv : v ∈ ringL) :
    v ∈ minimum_rotated_rectangle_region f g mrrPrim ringL ∧
    v ∈ rotated_rectangle_region f g hull_ext centroidOf ringL az := by
  have hfv : f v ∈ f '' ptSet ringL := ⟨v, hv, rfl⟩
  constructor
  · exact ⟨f v, hmrr _ (subset_convexHull ℝ _ hfv), hfg v⟩
  · simp only [rotated_rectangle_region]
    refine ⟨f v, ?_, hfg v⟩
    have h1 := hhull hfv
    have h2 : ptSet (hull_ext (convexHull ℝ (f '' ptSet ringL))) ⊆
        convexHull ℝ (ptSet (rotated_rectangle_corners
          (hull_ext (convexHull ℝ (f '' ptSet ringL)))
          (centroidOf (convexHull ℝ (f '' ptSet ringL))) az)) :=
      fun q hq => mem_hull_rotated_rectangle_corners _ _ az q hq
    exact convexHull_min h2 (convex_convexHull ℝ _) h1

/-- C3 witness: the unit-square ring with identity transforms, the identity
minimum-rectangle primitive and a constant hull oracle, at azimuth 45. -/
theorem C3_witness :
    ((0 : ℝ), (0 : ℝ)) ∈ minimum_rotated_rectangle_region id id id
        [((0 : ℝ), (0 : ℝ)), (1, 0), (1, 1), (0, 1)] ∧
    ((0 : ℝ), (0 : ℝ)) ∈ rotated_rectangle_region id id
        (fun _ => [((0 : ℝ), (0 : ℝ)), (1, 0), (1, 1), (0, 1)]) (fun _ => (0, 0))
        [((0 : ℝ), (0 : ℝ)), (1, 0), (1, 1), (0, 1)] 45 :=
  C3_rectangles_contain id id (fun _ => rfl) id (fun _ => subset_rfl)
    (fun _ => [((0 : ℝ), (0 : ℝ)), (1, 0), (1, 1), (0, 1)]) (fun _ => (0, 0))
    [((0 : ℝ), (0 : ℝ)), (1, 0), (1, 1), (0, 1)]
    (by rw [Set.image_id]
        exact subset_convexHull ℝ _)
    45 (0, 0) (by simp)

end Hyplan
